import Mathlib

/-!
Verification of the `Oscillator` audio-worklet processor (`src/oscillator.js`)
against its natural-language specification.

Modelling conventions:
* JavaScript numbers are modelled as real numbers (`ℝ`); `Math.sin` is
  `Real.sin`, `Math.floor` is `Int.floor`, `Math.abs` is `|·|`.
* The JS remainder `x % 1` keeps the sign of the dividend; it is modelled by
  `jsMod1`.
* `Math.random() * 2 - 1` draws are injected as explicit `white` arguments
  (one per sample; at most one branch draws per sample, and the branches are
  mutually exclusive).
* The global `sampleRate` of the worklet scope is an explicit argument.
* `undefined` (the value a JS function returns when it falls off the end, and
  the value of an out-of-range array read) is modelled by `Option.none`.
-/

/-- JavaScript `x % 1`: remainder with the sign of the dividend
(`-1.3 % 1 = -0.3` in JS). For nonnegative `x` it agrees with `Int.fract`. -/
noncomputable def jsMod1 (x : ℝ) : ℝ :=
  if 0 ≤ x then Int.fract x else -(Int.fract (-x))

/-- `saw(value)` from `src/oscillator.js` line 105: `value - Math.floor(value)`. -/
noncomputable def saw (value : ℝ) : ℝ :=
  value - ⌊value⌋

/-- `clipValue(value)` from `src/oscillator.js` line 115: hard clip to `[-1,1]`. -/
noncomputable def clipValue (value : ℝ) : ℝ :=
  if value > 1 then 1 else if value < -1 then -1 else value

/-- `getRateValue(parameter, index)` from `src/oscillator.js` line 110.
A JS array read out of range yields `undefined` (`none`), and when neither
branch is taken the function implicitly returns `undefined` (`none`). -/
def getRateValue (parameter : List ℝ) (index : ℕ) : Option ℝ :=
  if 1 < parameter.length then parameter[index]? -- a-rate
  else if parameter.length = 1 then parameter[0]? -- k-rate
  else none

/-- The mutable instance fields of the `Oscillator` class
(constructor, `src/oscillator.js` lines 35-52). -/
@[ext]
structure OscState where
  leaderPhase : ℝ
  followerPhase : ℝ
  b0 : ℝ
  b1 : ℝ
  b2 : ℝ
  b3 : ℝ
  b4 : ℝ
  b5 : ℝ
  b6 : ℝ
  lastOut : ℝ

/-- The state set up by the constructor: every field is `0`. -/
def initState : OscState :=
  ⟨0, 0, 0, 0, 0, 0, 0, 0, 0, 0⟩

/-- The seven parameter values resolved for one sample
(`src/oscillator.js` lines 128-134). -/
structure Params where
  signalType : ℝ
  frequency : ℝ
  phaseOffset : ℝ
  vibrato : ℝ
  duty : ℝ
  sync : ℝ
  amplitude : ℝ

/-- The waveform/noise dispatch, `src/oscillator.js` lines 158-194:
`sampleValue` starts at `0`; the source tests `wave === k` in a sequence of
independent `if`s whose conditions are mutually exclusive equalities on the
same integer, so an `if`/`else` chain is semantically identical.  Returns the
raw `sampleValue` (before amplitude scaling) and the updated state. -/
noncomputable def genSample (wave : ℤ) (st : OscState) (duty white : ℝ) :
    ℝ × OscState :=
  if wave = 6 then -- brown noise
    let v := (st.lastOut + 0.02 * white) / 1.02
    (v * 3.5, { st with lastOut := v })
  else if wave = 5 then -- pink noise
    let nb0 := 0.99886 * st.b0 + white * 0.0555179
    let nb1 := 0.99332 * st.b1 + white * 0.0750759
    let nb2 := 0.969 * st.b2 + white * 0.153852
    let nb3 := 0.8665 * st.b3 + white * 0.3104856
    let nb4 := 0.55 * st.b4 + white * 0.5329522
    let nb5 := -0.7616 * st.b5 - white * 0.016898
    ((nb0 + nb1 + nb2 + nb3 + nb4 + nb5 + st.b6 + white * 0.5362) * 0.11,
      { st with b0 := nb0, b1 := nb1, b2 := nb2, b3 := nb3, b4 := nb4,
                b5 := nb5, b6 := white * 0.115926 })
  else if wave = 4 then -- white noise
    (white, st)
  else if wave = 3 then -- sine wave
    (Real.sin (st.followerPhase * 2 * Real.pi), st)
  else if wave = 2 then -- sawtooth wave
    (saw st.followerPhase * 2 - 1, st)
  else if wave = 1 then -- pulse wave
    (if saw st.followerPhase - saw (st.followerPhase + duty) > 0 then 1 else -1,
      st)
  else if wave = 0 then -- triangle wave
    (|saw st.followerPhase - 1 / 2| * 4 - 1, st)
  else -- no branch matched: sampleValue keeps its initial value 0
    (0, st)

/-- The per-sample phase update, `src/oscillator.js` lines 136-156: normalize
both frequencies to cycles per sample, advance the leader, retrigger or
free-run the follower, add the phase offset, add the vibrato perturbation,
and wrap the follower with the JS `%= 1`.  Takes and returns the pair
(leaderPhase, followerPhase); this part of the loop body touches no other
instance field. -/
noncomputable def phaseUpdate (sampleRate : ℝ) (p : Params) (lp fp : ℝ) :
    ℝ × ℝ :=
  let leaderNFrequency := p.sync / sampleRate
  let followerNFrequency := p.frequency / sampleRate
  let lp1 := lp + leaderNFrequency
  -- retrigger: `if (leaderFrequency !== 0 && this.leaderPhase >= 1)`
  let phases :=
    if p.sync ≠ 0 ∧ 1 ≤ lp1 then (jsMod1 lp1, (0 : ℝ))
    else (lp1, fp + followerNFrequency)
  let fp2 := phases.2 + p.phaseOffset
  let fp3 := fp2 + Real.sin (fp2 * 2 * Real.pi * p.vibrato / 500) * 2
  (phases.1, jsMod1 fp3)

/-- One iteration of the inner sample loop, `src/oscillator.js` lines 126-197,
after the seven parameters have been resolved: phase update (lines 136-156),
waveform dispatch (lines 158-194), then amplitude scaling and clipping
(line 197).  Returns the updated state and the value written to the channel. -/
noncomputable def processSample (sampleRate : ℝ) (p : Params) (white : ℝ)
    (s : OscState) : OscState × ℝ :=
  let ph := phaseUpdate sampleRate p s.leaderPhase s.followerPhase
  let s1 : OscState := { s with leaderPhase := ph.1, followerPhase := ph.2 }
  let gen := genSample ⌊p.signalType⌋ s1 p.duty white
  (gen.2, clipValue (p.amplitude * gen.1))

/-- The raw (unresolved) parameter arrays handed to `process`; each is either
a one-element array (k-rate) or one entry per frame (a-rate). -/
structure RawParams where
  signalType : List ℝ
  frequency : List ℝ
  phaseOffset : List ℝ
  vibrato : List ℝ
  duty : List ℝ
  sync : List ℝ
  amplitude : List ℝ

/-- Resolution of all seven parameters at one sample index,
`src/oscillator.js` lines 128-134.  `none` when any `getRateValue` call
yields `undefined` (JS would then propagate `NaN`, which `ℝ` cannot
represent). -/
def resolveParams (raw : RawParams) (index : ℕ) : Option Params := do
  let st ← getRateValue raw.signalType index
  let duty ← getRateValue raw.duty index
  let vib ← getRateValue raw.vibrato index
  let amp ← getRateValue raw.amplitude index
  let po ← getRateValue raw.phaseOffset index
  let sy ← getRateValue raw.sync index
  let f ← getRateValue raw.frequency index
  pure ⟨st, f, po, vib, duty, sy, amp⟩

/-- The inner sample loop of `process`: `k` samples remain, the next one has
index `i`.  Returns the list of written samples and the final state; `none`
when some parameter fails to resolve (JS would write `NaN`s instead). -/
noncomputable def runSamples (sampleRate : ℝ) (raw : RawParams)
    (white : ℕ → ℝ) : ℕ → ℕ → OscState → Option (List ℝ × OscState)
  | 0, _, s => some ([], s)
  | k + 1, i, s => do
    let p ← resolveParams raw i
    let step := processSample sampleRate p (white i) s
    let rest ← runSamples sampleRate raw white k (i + 1) step.1
    pure (step.2 :: rest.1, rest.2)

/-- `process(_input, outputs, parameters)`, `src/oscillator.js` lines 121-201.
`outputs` is a list of buses, each a list of channels, each a list of samples.
The `for` loop over buses `return true`s at the end of its FIRST iteration
(line 199), so at most one bus is handled; with no buses the loop body never
runs and the function returns `undefined` (`none` in the `Option Bool`).
The result is `none` when the first bus has no channel 0 (JS throws a
`TypeError` reading `firstChannel.length`) or when a parameter fails to
resolve (JS would silently write `NaN`s, which `ℝ` cannot represent);
otherwise it is the outputs after the write-back, the final oscillator state,
and the JS return value. -/
noncomputable def process (sampleRate : ℝ) (raw : RawParams) (white : ℕ → ℝ)
    (s : OscState) (outputs : List (List (List ℝ))) :
    Option (List (List (List ℝ)) × OscState × Option Bool) :=
  match outputs with
  | [] => some ([], s, none)
  | bus :: rest =>
    match bus with
    | [] => none
    | ch0 :: chs =>
      (runSamples sampleRate raw white ch0.length 0 s).map
        (fun r => ((r.1 :: chs) :: rest, r.2, some true))

/-- Sample at block index `k` of the first channel of the first bus of a
`process` result (used to state claims about "the sample written at index `k`"). -/
noncomputable def sampleAt
    (r : Option (List (List (List ℝ)) × OscState × Option Bool)) (k : ℕ) :
    Option ℝ :=
  match r with
  | none => none
  | some (outs, _, _) =>
    match outs with
    | [] => none
    | bus :: _ =>
      match bus with
      | [] => none
      | ch0 :: _ => ch0[k]?

/-! ### Helper lemmas -/

theorem jsMod1_of_nonneg {x : ℝ} (h : 0 ≤ x) : jsMod1 x = Int.fract x :=
  if_pos h

theorem jsMod1_mem_Ico {x : ℝ} (h : 0 ≤ x) :
    0 ≤ jsMod1 x ∧ jsMod1 x < 1 := by
  rw [jsMod1_of_nonneg h]
  exact ⟨Int.fract_nonneg x, Int.fract_lt_one x⟩

theorem clipValue_of_abs_le {x : ℝ} (h1 : -1 ≤ x) (h2 : x ≤ 1) :
    clipValue x = x := by
  unfold clipValue
  rw [if_neg (by linarith), if_neg (by linarith)]

theorem clipValue_zero : clipValue 0 = 0 := by
  norm_num [clipValue]

/-! ### C5: the pulse branch -/

/-- Claim C5: for every phase value and every duty value, the pulse waveform
(kind 1), before amplitude scaling, equals exactly `+1` when
`frac(phase) - frac(phase + duty) > 0` and exactly `-1` otherwise; its value
is never anything other than `+1` or `-1`. -/
theorem C5_pulse_pm_one (st : OscState) (duty white : ℝ) :
    (genSample 1 st duty white).1 =
      (if saw st.followerPhase - saw (st.followerPhase + duty) > 0
        then 1 else -1) ∧
    ((genSample 1 st duty white).1 = 1 ∨ (genSample 1 st duty white).1 = -1) := by
  have h : (genSample 1 st duty white).1 =
      (if saw st.followerPhase - saw (st.followerPhase + duty) > 0
        then 1 else -1) := by
    norm_num [genSample]
  refine ⟨h, ?_⟩
  rw [h]
  by_cases hc : saw st.followerPhase - saw (st.followerPhase + duty) > 0
  · exact Or.inl (if_pos hc)
  · exact Or.inr (if_neg hc)

/-! ### C6: the pink-noise branch -/

/-- Claim C6: for every sample generated with kind 5 (pink noise), the raw
output before amplitude scaling equals
`(b0' + b1' + b2' + b3' + b4' + b5' + b6 + white * 0.5362) * 0.11`, where
`b0'..b5'` are the taps updated with this sample's white draw using the stated
coefficients and `b6` is the value stored during the previous sample;
`b6` is assigned this sample's `white * 0.115926` only after the output sum is
formed (the sum uses the OLD `b6`). -/
theorem C6_pink_update (st : OscState) (duty white : ℝ) :
    genSample 5 st duty white =
      ((((0.99886 * st.b0 + white * 0.0555179) +
         (0.99332 * st.b1 + white * 0.0750759) +
         (0.969 * st.b2 + white * 0.153852) +
         (0.8665 * st.b3 + white * 0.3104856) +
         (0.55 * st.b4 + white * 0.5329522) +
         (-0.7616 * st.b5 - white * 0.016898) +
         st.b6 + white * 0.5362) * 0.11),
       { st with
          b0 := 0.99886 * st.b0 + white * 0.0555179,
          b1 := 0.99332 * st.b1 + white * 0.0750759,
          b2 := 0.969 * st.b2 + white * 0.153852,
          b3 := 0.8665 * st.b3 + white * 0.3104856,
          b4 := 0.55 * st.b4 + white * 0.5329522,
          b5 := -0.7616 * st.b5 - white * 0.016898,
          b6 := white * 0.115926 }) := by
  norm_num [genSample]

/-! ### C8: out-of-range waveform code yields silence -/

/-- Claim C8: for every resolved `signalType` whose floor lies outside `[0,6]`,
the sample written to the output (after amplitude scaling and clipping) is `0`;
no branch matches, `sampleValue` keeps its initial value `0`, and no error is
raised (`processSample` is a total function). -/
theorem C8_out_of_range_silence (sampleRate : ℝ) (p : Params) (white : ℝ)
    (s : OscState) (h : ⌊p.signalType⌋ < 0 ∨ 6 < ⌊p.signalType⌋) :
    (processSample sampleRate p white s).2 = 0 := by
  have h6 : ⌊p.signalType⌋ ≠ 6 := by omega
  have h5 : ⌊p.signalType⌋ ≠ 5 := by omega
  have h4 : ⌊p.signalType⌋ ≠ 4 := by omega
  have h3 : ⌊p.signalType⌋ ≠ 3 := by omega
  have h2 : ⌊p.signalType⌋ ≠ 2 := by omega
  have h1 : ⌊p.signalType⌋ ≠ 1 := by omega
  have h0 : ⌊p.signalType⌋ ≠ 0 := by omega
  simp [processSample, genSample, h6, h5, h4, h3, h2, h1, h0, clipValue_zero]

/-- Witness for C8 at `signalType = 7` (floor `7 > 6`). -/
theorem C8_out_of_range_silence_witness :
    ((⌊(Params.mk 7 440 0 0.8 0.5 0 1).signalType⌋ < 0 ∨
        6 < ⌊(Params.mk 7 440 0 0.8 0.5 0 1).signalType⌋) ∧
      (processSample 1000 (Params.mk 7 440 0 0.8 0.5 0 1) 0.25 initState).2 = 0) :=
  ⟨Or.inr (by norm_num), C8_out_of_range_silence 1000 _ 0.25 initState
    (Or.inr (by norm_num))⟩

/-! ### C10: each generator branch mutates only its own state -/

/-- Claim C10: each generator branch mutates only its own state: a sample with
floored `signalType` in `{0,1,2,3,4}` leaves the pink-noise taps `b0..b6` and
the brown-noise state `lastOut` unchanged; kind 5 (pink) leaves `lastOut`
unchanged; kind 6 (brown) leaves `b0..b6` unchanged. -/
theorem C10_branch_frame (sampleRate : ℝ) (p : Params) (white : ℝ)
    (s : OscState) :
    ((⌊p.signalType⌋ = 0 ∨ ⌊p.signalType⌋ = 1 ∨ ⌊p.signalType⌋ = 2 ∨
        ⌊p.signalType⌋ = 3 ∨ ⌊p.signalType⌋ = 4) →
      (processSample sampleRate p white s).1.b0 = s.b0 ∧
      (processSample sampleRate p white s).1.b1 = s.b1 ∧
      (processSample sampleRate p white s).1.b2 = s.b2 ∧
      (processSample sampleRate p white s).1.b3 = s.b3 ∧
      (processSample sampleRate p white s).1.b4 = s.b4 ∧
      (processSample sampleRate p white s).1.b5 = s.b5 ∧
      (processSample sampleRate p white s).1.b6 = s.b6 ∧
      (processSample sampleRate p white s).1.lastOut = s.lastOut) ∧
    (⌊p.signalType⌋ = 5 →
      (processSample sampleRate p white s).1.lastOut = s.lastOut) ∧
    (⌊p.signalType⌋ = 6 →
      (processSample sampleRate p white s).1.b0 = s.b0 ∧
      (processSample sampleRate p white s).1.b1 = s.b1 ∧
      (processSample sampleRate p white s).1.b2 = s.b2 ∧
      (processSample sampleRate p white s).1.b3 = s.b3 ∧
      (processSample sampleRate p white s).1.b4 = s.b4 ∧
      (processSample sampleRate p white s).1.b5 = s.b5 ∧
      (processSample sampleRate p white s).1.b6 = s.b6) := by
  refine ⟨fun h => ?_, fun h => ?_, fun h => ?_⟩
  · rcases h with h | h | h | h | h <;>
      simp [processSample, genSample, h]
  · simp [processSample, genSample, h]
  · simp [processSample, genSample, h]

/-- Witness for C10: instantiates each of the three conditional parts at a
concrete input (kinds 3, 5 and 6 on a state with nonzero noise fields). -/
theorem C10_branch_frame_witness :
    ((processSample 1000 (Params.mk 3 440 0 0.8 0.5 0 1) 0.25
        ⟨0, 0, 1, 2, 3, 4, 5, 6, 7, 8⟩).1.b6 = 7 ∧
      (processSample 1000 (Params.mk 3 440 0 0.8 0.5 0 1) 0.25
        ⟨0, 0, 1, 2, 3, 4, 5, 6, 7, 8⟩).1.lastOut = 8) ∧
    (processSample 1000 (Params.mk 5 440 0 0.8 0.5 0 1) 0.25
        ⟨0, 0, 1, 2, 3, 4, 5, 6, 7, 8⟩).1.lastOut = 8 ∧
    (processSample 1000 (Params.mk 6 440 0 0.8 0.5 0 1) 0.25
        ⟨0, 0, 1, 2, 3, 4, 5, 6, 7, 8⟩).1.b6 = 7 := by
  have t3 := C10_branch_frame 1000 (Params.mk 3 440 0 0.8 0.5 0 1) 0.25
    ⟨0, 0, 1, 2, 3, 4, 5, 6, 7, 8⟩
  have t5 := C10_branch_frame 1000 (Params.mk 5 440 0 0.8 0.5 0 1) 0.25
    ⟨0, 0, 1, 2, 3, 4, 5, 6, 7, 8⟩
  have t6 := C10_branch_frame 1000 (Params.mk 6 440 0 0.8 0.5 0 1) 0.25
    ⟨0, 0, 1, 2, 3, 4, 5, 6, 7, 8⟩
  have h3 := t3.1 (Or.inr (Or.inr (Or.inr (Or.inl (by norm_num)))))
  have h5 := t5.2.1 (by norm_num)
  have h6 := t6.2.2 (by norm_num)
  exact ⟨⟨h3.2.2.2.2.2.2.1, h3.2.2.2.2.2.2.2⟩, h5, h6.2.2.2.2.2.2⟩

/-! ### C1: the phase update matches the reference algorithm of spec section 4.3 -/

/-- The reference per-sample phase algorithm, written from the words of spec
section 4.3: frequencies are divided by the sample rate to get
cycles-per-sample; the leader advances; on retrigger (nonzero sync frequency
and `leaderPhase >= 1`) the leader is wrapped into `[0,1)` via modulo
(`Int.fract`) and the follower is reset to `0`, its normal advance skipped;
otherwise the follower free-runs; then the phase offset is added
unconditionally, then `sin(followerPhase * 2 * pi * vibrato / 500) * 2` is
added, then the follower is wrapped into `[0,1)` via modulo. -/
noncomputable def phaseStepSpec (sampleRate syncFrequency followerFrequency
    phaseOffset vibrato lp fp : ℝ) : ℝ × ℝ :=
  let leaderCyclesPerSample := syncFrequency / sampleRate
  let followerCyclesPerSample := followerFrequency / sampleRate
  let lp1 := lp + leaderCyclesPerSample
  let phases :=
    if syncFrequency ≠ 0 ∧ 1 ≤ lp1 then (Int.fract lp1, (0 : ℝ))
    else (lp1, fp + followerCyclesPerSample)
  let fp2 := phases.2 + phaseOffset
  let fp3 := fp2 + Real.sin (fp2 * 2 * Real.pi * vibrato / 500) * 2
  (phases.1, Int.fract fp3)

/-- The parameter values that can actually reach the engine: the host clamps
each parameter to the bounds declared in `parameterDescriptors`
(`src/oscillator.js` lines 53-102), and the sample rate of an audio context
is positive. -/
def Clamped (sampleRate : ℝ) (p : Params) : Prop :=
  0 < sampleRate ∧ 0 ≤ p.frequency ∧ p.frequency ≤ sampleRate / 2 ∧
    0 ≤ p.phaseOffset ∧ p.phaseOffset ≤ 1 ∧ 0 ≤ p.vibrato ∧ p.vibrato ≤ 1 ∧
    0 ≤ p.sync

/-- For a pre-wrap follower phase `x` in `[0, 5/2]` and vibrato in `[0, 1]`,
the vibrato perturbation `sin(x * 2 * pi * v / 500) * 2` is nonnegative: the
sine argument lies in `[0, pi/100]`. -/
theorem vibrato_term_nonneg {x v : ℝ} (h0 : 0 ≤ x) (h1 : x ≤ 5 / 2)
    (hv0 : 0 ≤ v) (hv1 : v ≤ 1) :
    0 ≤ Real.sin (x * 2 * Real.pi * v / 500) * 2 := by
  have hpi := Real.pi_pos
  have harg0 : 0 ≤ x * 2 * Real.pi * v / 500 := by positivity
  have harg1 : x * 2 * Real.pi * v / 500 ≤ Real.pi := by
    rw [div_le_iff (by norm_num : (0:ℝ) < 500)]
    nlinarith [mul_le_mul h1 hv1 hv0 (by norm_num : (0:ℝ) ≤ 5 / 2)]
  have := Real.sin_nonneg_of_nonneg_of_le_pi harg0 harg1
  linarith

/-- The follower's pre-wrap value stays nonnegative under clamped parameters,
so the JS `%= 1` agrees with the mathematical wrap into `[0,1)`. -/
theorem follower_prewrap_nonneg {sampleRate : ℝ} {p : Params} {base : ℝ}
    (hc : Clamped sampleRate p) (hb0 : 0 ≤ base) (hb1 : base ≤ 3 / 2) :
    0 ≤ base + p.phaseOffset +
      Real.sin ((base + p.phaseOffset) * 2 * Real.pi * p.vibrato / 500) * 2 := by
  obtain ⟨-, -, -, hpo0, hpo1, hv0, hv1, -⟩ := hc
  have h0 : 0 ≤ base + p.phaseOffset := by linarith
  have h1 : base + p.phaseOffset ≤ 5 / 2 := by linarith
  have := vibrato_term_nonneg h0 h1 hv0 hv1
  linarith

/-- Under clamped parameters, the follower's normal advance is at most `1/2`
of a cycle per sample. -/
theorem follower_advance_le {sampleRate : ℝ} {p : Params}
    (hc : Clamped sampleRate p) :
    0 ≤ p.frequency / sampleRate ∧ p.frequency / sampleRate ≤ 1 / 2 := by
  obtain ⟨hsr, hf0, hf1, -⟩ := hc
  constructor
  · positivity
  · rw [div_le_iff hsr]
    linarith

/-- Claim C1: for every sample processed with clamped parameters and a
follower phase in the invariant range, the per-sample phase update of the
code (`phaseUpdate`, lines 136-156) equals the reference algorithm of spec
section 4.3 (`phaseStepSpec`).  The hypotheses are needed because the JS `%`
keeps the dividend's sign, while the spec's modulo wraps into `[0,1)`; under
clamped parameters both operands are nonnegative and the two coincide. -/
theorem C1_phase_update_refines_spec (sampleRate : ℝ) (p : Params)
    (lp fp : ℝ) (hc : Clamped sampleRate p) (hfp0 : 0 ≤ fp)
    (hfp1 : fp ≤ 1) :
    phaseUpdate sampleRate p lp fp =
      phaseStepSpec sampleRate p.sync p.frequency p.phaseOffset p.vibrato
        lp fp := by
  unfold phaseUpdate phaseStepSpec
  by_cases hretr : p.sync ≠ 0 ∧ 1 ≤ lp + p.sync / sampleRate
  · simp only [if_pos hretr]
    have hlp1 : (0:ℝ) ≤ lp + p.sync / sampleRate := le_trans zero_le_one hretr.2
    have hfw : 0 ≤ (0:ℝ) + p.phaseOffset +
        Real.sin (((0:ℝ) + p.phaseOffset) * 2 * Real.pi * p.vibrato / 500) * 2 :=
      follower_prewrap_nonneg hc le_rfl (by norm_num)
    rw [jsMod1_of_nonneg hlp1, jsMod1_of_nonneg hfw]
  · simp only [if_neg hretr]
    have hadv := follower_advance_le hc
    have hfw : 0 ≤ fp + p.frequency / sampleRate + p.phaseOffset +
        Real.sin ((fp + p.frequency / sampleRate + p.phaseOffset) * 2 *
          Real.pi * p.vibrato / 500) * 2 :=
      follower_prewrap_nonneg hc (by linarith [hadv.1]) (by linarith [hadv.2])
    rw [jsMod1_of_nonneg hfw]

/-- Witness for C1 at `sampleRate = 1000`, sine parameters with
`frequency = 100`, `sync = 0`, and phases `(0, 0)`. -/
theorem C1_phase_update_refines_spec_witness :
    Clamped 1000 (Params.mk 3 100 0 0 0.5 0 1) ∧
      phaseUpdate 1000 (Params.mk 3 100 0 0 0.5 0 1) 0 0 =
        phaseStepSpec 1000 0 100 0 0 0 0 := by
  have hc : Clamped 1000 (Params.mk 3 100 0 0 0.5 0 1) := by
    refine ⟨by norm_num, by norm_num, by norm_num, le_rfl, by norm_num,
      le_rfl, by norm_num, le_rfl⟩
  exact ⟨hc, C1_phase_update_refines_spec 1000 _ 0 0 hc le_rfl zero_le_one⟩

/-! ### C3: both phases stay in `[0,1)` -/

/-- The spec section 3 invariant on the two phase fields. -/
def PhaseInv (s : OscState) : Prop :=
  0 ≤ s.leaderPhase ∧ s.leaderPhase < 1 ∧
    0 ≤ s.followerPhase ∧ s.followerPhase < 1

/-- The phase fields of `processSample`'s output state are exactly the result
of `phaseUpdate`: no generator branch writes to either phase. -/
theorem processSample_phase_fields (sampleRate : ℝ) (p : Params) (white : ℝ)
    (s : OscState) :
    (processSample sampleRate p white s).1.leaderPhase =
        (phaseUpdate sampleRate p s.leaderPhase s.followerPhase).1 ∧
      (processSample sampleRate p white s).1.followerPhase =
        (phaseUpdate sampleRate p s.leaderPhase s.followerPhase).2 := by
  simp only [processSample, genSample]
  split_ifs <;> exact ⟨rfl, rfl⟩

/-- One clamped phase update keeps both phases in `[0,1)`. -/
theorem phaseUpdate_mem {sampleRate : ℝ} {p : Params} {lp fp : ℝ}
    (hc : Clamped sampleRate p) (hlp0 : 0 ≤ lp) (hlp1 : lp < 1)
    (hfp0 : 0 ≤ fp) (hfp1 : fp < 1) :
    (0 ≤ (phaseUpdate sampleRate p lp fp).1 ∧
        (phaseUpdate sampleRate p lp fp).1 < 1) ∧
      (0 ≤ (phaseUpdate sampleRate p lp fp).2 ∧
        (phaseUpdate sampleRate p lp fp).2 < 1) := by
  obtain ⟨hsr, hf0, hf1, hpo0, hpo1, hv0, hv1, hsy⟩ := hc
  have hc' : Clamped sampleRate p :=
    ⟨hsr, hf0, hf1, hpo0, hpo1, hv0, hv1, hsy⟩
  have hadv := follower_advance_le hc'
  simp only [phaseUpdate]
  by_cases hretr : p.sync ≠ 0 ∧ 1 ≤ lp + p.sync / sampleRate
  · simp only [if_pos hretr]
    have hfw : 0 ≤ (0:ℝ) + p.phaseOffset +
        Real.sin (((0:ℝ) + p.phaseOffset) * 2 * Real.pi * p.vibrato / 500) * 2 :=
      follower_prewrap_nonneg hc' le_rfl (by norm_num)
    exact ⟨jsMod1_mem_Ico (le_trans zero_le_one hretr.2), jsMod1_mem_Ico hfw⟩
  · simp only [if_neg hretr]
    have hlead0 : 0 ≤ lp + p.sync / sampleRate :=
      add_nonneg hlp0 (div_nonneg hsy hsr.le)
    have hlead1 : lp + p.sync / sampleRate < 1 := by
      by_cases hs0 : p.sync = 0
      · rw [hs0, zero_div, add_zero]
        exact hlp1
      · push_neg at hretr
        exact hretr hs0
    have hfw : 0 ≤ fp + p.frequency / sampleRate + p.phaseOffset +
        Real.sin ((fp + p.frequency / sampleRate + p.phaseOffset) * 2 *
          Real.pi * p.vibrato / 500) * 2 :=
      follower_prewrap_nonneg hc' (by linarith [hadv.1]) (by linarith [hadv.2])
    exact ⟨⟨hlead0, hlead1⟩, jsMod1_mem_Ico hfw⟩

/-- Iterating the sample loop body over a list of already-resolved parameter
frames paired with their white-noise draws; returns the final state. -/
noncomputable def runSteps (sampleRate : ℝ) :
    List (Params × ℝ) → OscState → OscState
  | [], s => s
  | pw :: rest, s =>
    runSteps sampleRate rest (processSample sampleRate pw.1 pw.2 s).1

/-- One clamped `processSample` preserves the phase invariant. -/
theorem processSample_phaseInv {sampleRate : ℝ} {p : Params} {white : ℝ}
    {s : OscState} (hc : Clamped sampleRate p) (h : PhaseInv s) :
    PhaseInv (processSample sampleRate p white s).1 := by
  obtain ⟨h0, h1, h2, h3⟩ := h
  obtain ⟨hl, hf⟩ := processSample_phase_fields sampleRate p white s
  have hm := phaseUpdate_mem hc h0 h1 h2 h3
  exact ⟨hl ▸ hm.1.1, hl ▸ hm.1.2, hf ▸ hm.2.1, hf ▸ hm.2.2⟩

/-- Every state reachable by clamped steps from a state satisfying the
invariant satisfies the invariant. -/
theorem runSteps_phaseInv {sampleRate : ℝ} :
    ∀ (steps : List (Params × ℝ)) (s : OscState),
      (∀ pw ∈ steps, Clamped sampleRate pw.1) → PhaseInv s →
        PhaseInv (runSteps sampleRate steps s)
  | [], s, _, h => h
  | pw :: rest, s, hc, h =>
    runSteps_phaseInv rest _ (fun q hq => hc q (List.mem_cons_of_mem _ hq))
      (processSample_phaseInv (hc pw (List.mem_cons_self _ _)) h)

/-- Claim C3: after every per-sample state update (any number of processed
samples, any host-clamped parameter values — in particular also when the
sync frequency is `0`), both `leaderPhase` and `followerPhase` lie in `[0,1)`.
Starting from the constructor state, where both phases are `0`. -/
theorem C3_phases_in_unit_interval (sampleRate : ℝ)
    (steps : List (Params × ℝ))
    (h : ∀ pw ∈ steps, Clamped sampleRate pw.1) :
    0 ≤ (runSteps sampleRate steps initState).leaderPhase ∧
      (runSteps sampleRate steps initState).leaderPhase < 1 ∧
      0 ≤ (runSteps sampleRate steps initState).followerPhase ∧
      (runSteps sampleRate steps initState).followerPhase < 1 :=
  runSteps_phaseInv steps initState h
    ⟨le_rfl, zero_lt_one, le_rfl, zero_lt_one⟩

/-- Witness for C3: two clamped steps (one with sync disabled, one with a
nonzero sync frequency). -/
theorem C3_phases_in_unit_interval_witness :
    0 ≤ (runSteps 1000 [(Params.mk 3 100 0 0 0.5 0 1, 0),
        (Params.mk 3 100 0 1 0.5 600 1, 0)] initState).leaderPhase ∧
      (runSteps 1000 [(Params.mk 3 100 0 0 0.5 0 1, 0),
        (Params.mk 3 100 0 1 0.5 600 1, 0)] initState).leaderPhase < 1 ∧
      0 ≤ (runSteps 1000 [(Params.mk 3 100 0 0 0.5 0 1, 0),
        (Params.mk 3 100 0 1 0.5 600 1, 0)] initState).followerPhase ∧
      (runSteps 1000 [(Params.mk 3 100 0 0 0.5 0 1, 0),
        (Params.mk 3 100 0 1 0.5 600 1, 0)] initState).followerPhase < 1 := by
  apply C3_phases_in_unit_interval
  intro pw hpw
  simp only [List.mem_cons, List.mem_singleton] at hpw
  rcases hpw with h | h | h
  · subst h
    exact ⟨by norm_num, by norm_num, by norm_num, le_rfl, by norm_num,
      le_rfl, by norm_num, le_rfl⟩
  · subst h
    exact ⟨by norm_num, by norm_num, by norm_num, le_rfl, by norm_num,
      by norm_num, by norm_num, by norm_num⟩
  · cases h

/-! ### Well-formed parameter arrays and claims C4, C7, C9 -/

/-- A well-formed parameters map for a block of `n` frames: every array holds
either one entry (k-rate) or `n` entries (a-rate) — the caller contract of
spec sections 4.1 and 6. -/
def WellFormedRaw (raw : RawParams) (n : ℕ) : Prop :=
  (raw.signalType.length = 1 ∨ raw.signalType.length = n) ∧
    (raw.frequency.length = 1 ∨ raw.frequency.length = n) ∧
    (raw.phaseOffset.length = 1 ∨ raw.phaseOffset.length = n) ∧
    (raw.vibrato.length = 1 ∨ raw.vibrato.length = n) ∧
    (raw.duty.length = 1 ∨ raw.duty.length = n) ∧
    (raw.sync.length = 1 ∨ raw.sync.length = n) ∧
    (raw.amplitude.length = 1 ∨ raw.amplitude.length = n)

/-- A parameter array of valid length always resolves at an in-range index. -/
theorem getRateValue_isSome {l : List ℝ} {n i : ℕ}
    (h : l.length = 1 ∨ l.length = n) (hi : i < n) :
    (getRateValue l i).isSome := by
  unfold getRateValue
  rcases h with h1 | hn
  · rw [if_neg (by omega), if_pos h1]
    simp [List.getElem?_eq_getElem, h1]
  · by_cases hgt : 1 < l.length
    · rw [if_pos hgt]
      simp [List.getElem?_eq_getElem, hn ▸ hi]
    · have hl1 : l.length = 1 := by omega
      rw [if_neg hgt, if_pos hl1]
      simp [List.getElem?_eq_getElem, hl1]

/-- All seven parameters resolve at an in-range index of a well-formed map. -/
theorem resolveParams_isSome {raw : RawParams} {n i : ℕ}
    (h : WellFormedRaw raw n) (hi : i < n) :
    (resolveParams raw i).isSome := by
  obtain ⟨h1, h2, h3, h4, h5, h6, h7⟩ := h
  unfold resolveParams
  obtain ⟨a, ha⟩ := Option.isSome_iff_exists.mp (getRateValue_isSome h1 hi)
  obtain ⟨b, hb⟩ := Option.isSome_iff_exists.mp (getRateValue_isSome h5 hi)
  obtain ⟨c, hc⟩ := Option.isSome_iff_exists.mp (getRateValue_isSome h4 hi)
  obtain ⟨d, hd⟩ := Option.isSome_iff_exists.mp (getRateValue_isSome h7 hi)
  obtain ⟨e, he⟩ := Option.isSome_iff_exists.mp (getRateValue_isSome h3 hi)
  obtain ⟨f, hf⟩ := Option.isSome_iff_exists.mp (getRateValue_isSome h6 hi)
  obtain ⟨g, hg⟩ := Option.isSome_iff_exists.mp (getRateValue_isSome h2 hi)
  rw [ha, hb, hc, hd, he, hf, hg]
  rfl

/-- The sample loop over a well-formed parameters map always produces a
result. -/
theorem runSamples_isSome (sampleRate : ℝ) (raw : RawParams)
    (white : ℕ → ℝ) (n : ℕ) :
    ∀ (k i : ℕ) (s : OscState), i + k ≤ n → WellFormedRaw raw n →
      ∃ out fin, runSamples sampleRate raw white k i s = some (out, fin)
  | 0, _, s, _, _ => ⟨[], s, rfl⟩
  | k + 1, i, s, hik, hw => by
    obtain ⟨p, hp⟩ := Option.isSome_iff_exists.mp
      (resolveParams_isSome hw (show i < n by omega))
    obtain ⟨out, fin, hrun⟩ := runSamples_isSome sampleRate raw white n k
      (i + 1) (processSample sampleRate p (white i) s).1 (by omega) hw
    exact ⟨(processSample sampleRate p (white i) s).2 :: out, fin, by
      simp [runSamples, hp, hrun]⟩

/-- The white-noise stream used by concrete scenarios that never draw. -/
def wZero : ℕ → ℝ := fun _ => 0

/-- The k-rate parameters map of the spec section 8 sine scenario:
`signalType = 3`, `frequency = 100`, `phaseOffset = 0`, `vibrato = 0`,
`duty = 1/2`, `sync = 0`, `amplitude = 1`, each as a one-element array. -/
noncomputable def rawSine : RawParams :=
  ⟨[3], [100], [0], [0], [1 / 2], [0], [1]⟩

theorem rawSine_wellFormed (n : ℕ) : WellFormedRaw rawSine n :=
  ⟨Or.inl rfl, Or.inl rfl, Or.inl rfl, Or.inl rfl, Or.inl rfl, Or.inl rfl,
    Or.inl rfl⟩

/-- Reduction of `process` on an outputs structure whose first bus has a
channel 0: only the sample loop over that channel runs. -/
theorem process_cons (sampleRate : ℝ) (raw : RawParams) (white : ℕ → ℝ)
    (s : OscState) (ch0 : List ℝ) (chs : List (List ℝ))
    (rest : List (List (List ℝ))) :
    process sampleRate raw white s ((ch0 :: chs) :: rest) =
      (runSamples sampleRate raw white ch0.length 0 s).map
        (fun r => ((r.1 :: chs) :: rest, r.2, some true)) :=
  rfl

/-- Claim C4: for every call to `process` on a well-formed parameters map
whose outputs contain two or more buses (`rest` covers all buses after the
first; the statement holds for any `rest`), only channel 0 of the first bus
is written: the block loop returns after handling the first bus, so every
channel of every bus after the first (`rest` comes back untouched) and every
channel other than channel 0 of the first bus (`chs` comes back untouched)
is left unmodified. -/
theorem C4_only_first_bus_first_channel (sampleRate : ℝ) (raw : RawParams)
    (white : ℕ → ℝ) (s : OscState) (ch0 : List ℝ) (chs : List (List ℝ))
    (rest : List (List (List ℝ)))
    (hw : WellFormedRaw raw ch0.length) :
    ∃ newCh0 fin, process sampleRate raw white s ((ch0 :: chs) :: rest) =
      some ((newCh0 :: chs) :: rest, fin, some true) := by
  obtain ⟨out, fin, hrun⟩ := runSamples_isSome sampleRate raw white
    ch0.length ch0.length 0 s (by omega) hw
  refine ⟨out, fin, ?_⟩
  rw [process_cons, hrun]
  rfl

/-- Witness for C4: a zero-length first channel, a second channel and a
second bus, both of which come back untouched. -/
theorem C4_only_first_bus_first_channel_witness :
    ∃ newCh0 fin, process 1000 rawSine wZero initState
        ((([] : List ℝ) :: [[(2 : ℝ)]]) :: [[[(3 : ℝ)]]]) =
      some ((newCh0 :: [[(2 : ℝ)]]) :: [[[(3 : ℝ)]]], fin, some true) :=
  C4_only_first_bus_first_channel 1000 rawSine wZero initState []
    [[(2 : ℝ)]] [[[(3 : ℝ)]]] (rawSine_wellFormed _)

/-! ### C9: the return value of `process` -/

/-- Counterexample to claim C9: with an EMPTY outputs structure the loop body
never runs, `process` falls off the end of the function and returns
`undefined` (`none`), not `true` — the claim "every call returns true,
including an empty sequence of buses" is false at this input. -/
theorem C9_empty_outputs_returns_undefined :
    process 1000 rawSine wZero initState [] = some ([], initState, none) ∧
      (none : Option Bool) ≠ some true :=
  ⟨rfl, by simp⟩

/-- Claim C9 as amended: `process` returns `true` whenever the outputs
contain at least one bus whose channel 0 exists and the parameters map is
well-formed; with an empty outputs sequence it returns `undefined` instead. -/
theorem C9_returns_true_when_bus_exists (sampleRate : ℝ) (raw : RawParams)
    (white : ℕ → ℝ) (s : OscState) (ch0 : List ℝ) (chs : List (List ℝ))
    (rest : List (List (List ℝ)))
    (hw : WellFormedRaw raw ch0.length) :
    ∃ outs fin, process sampleRate raw white s ((ch0 :: chs) :: rest) =
      some (outs, fin, some true) := by
  obtain ⟨out, fin, hrun⟩ := runSamples_isSome sampleRate raw white
    ch0.length ch0.length 0 s (by omega) hw
  refine ⟨(out :: chs) :: rest, fin, ?_⟩
  rw [process_cons, hrun]
  rfl

/-- Witness for C9's amended claim on a one-bus, one-channel output. -/
theorem C9_returns_true_when_bus_exists_witness :
    ∃ outs fin, process 1000 rawSine wZero initState [[[(0 : ℝ)]]] =
      some (outs, fin, some true) :=
  C9_returns_true_when_bus_exists 1000 rawSine wZero initState [(0 : ℝ)] [] []
    (rawSine_wellFormed _)

/-! ### C7: resolution of a malformed parameter array -/

/-- Counterexample to claim C7: resolving an empty parameter array does NOT
fail fast with an assertion or fatal error — `getRateValue` takes neither
branch, falls off the end of the function and silently returns `undefined`
(`none`); no exception is possible in its body. -/
theorem C7_empty_param_returns_undefined :
    getRateValue ([] : List ℝ) 0 = none :=
  rfl

/-- Claim C7 as amended: for an empty parameter array (length neither 1 nor
the block length), resolution silently yields `undefined` (`none`) at every
index — it never raises an error, and downstream arithmetic would turn the
`undefined` into `NaN` rather than halting. -/
theorem C7_malformed_param_resolves_silently (i : ℕ) :
    getRateValue ([] : List ℝ) i = none :=
  rfl

/-! ### C2: the end-to-end sine scenario -/

/-- The resolved parameter frame of the sine scenario at every index. -/
noncomputable def pSine : Params :=
  ⟨3, 100, 0, 0, 1 / 2, 0, 1⟩

theorem resolveParams_rawSine (i : ℕ) : resolveParams rawSine i = some pSine :=
  rfl

/-- Wrapping after adding to an already-wrapped value is wrapping the sum. -/
theorem fract_add_left (a b : ℝ) :
    Int.fract (Int.fract a + b) = Int.fract (a + b) := by
  have h : Int.fract a + b = a + b - (⌊a⌋ : ℝ) := by
    rw [Int.fract]
    ring
  rw [h, Int.fract_sub_int]

/-- The sine of a wrapped phase times a full turn is the sine of the unwrapped
phase times a full turn. -/
theorem sin_fract_two_pi (x : ℝ) :
    Real.sin (Int.fract x * 2 * Real.pi) = Real.sin (2 * Real.pi * x) := by
  rw [Int.fract]
  have h : (x - (⌊x⌋ : ℝ)) * 2 * Real.pi =
      x * (2 * Real.pi) - (⌊x⌋ : ℝ) * (2 * Real.pi) := by ring
  rw [h, Real.sin_sub_int_mul_two_pi, mul_comm]
/-- One `processSample` of the sine scenario: the follower advances by
`100/1000 = 1/10` of a cycle and the written sample is the sine of the NEW
(already advanced) phase times `2 * pi`. -/
theorem processSample_sine_step (s : OscState) (w : ℝ)
    (h0 : 0 ≤ s.followerPhase) :
    processSample 1000 pSine w s =
      ({ s with followerPhase := Int.fract (s.followerPhase + 1 / 10) },
        Real.sin (Int.fract (s.followerPhase + 1 / 10) * 2 * Real.pi)) := by
  have hpu : phaseUpdate 1000 pSine s.leaderPhase s.followerPhase =
      (s.leaderPhase, Int.fract (s.followerPhase + 1 / 10)) := by
    simp only [phaseUpdate, pSine]
    rw [if_neg (by norm_num)]
    norm_num
    rw [jsMod1_of_nonneg (by linarith)]
  simp only [processSample]
  rw [hpu]
  have hfl : ⌊pSine.signalType⌋ = 3 := by norm_num [pSine]
  simp only [hfl]
  simp [genSample, pSine, clipValue_of_abs_le, Real.neg_one_le_sin,
    Real.sin_le_one]

/-- The sample loop of the sine scenario, from any wrapped follower phase:
sample `j` (0-based, relative to the start of the loop) is the sine of the
phase AFTER `j + 1` advances, and the final follower phase has advanced by
`k/10`. -/
theorem runSamples_sine :
    ∀ (k i : ℕ) (s : OscState), 0 ≤ s.followerPhase → s.followerPhase < 1 →
      runSamples 1000 rawSine wZero k i s =
        some ((List.range k).map (fun (j : ℕ) =>
            Real.sin (Int.fract (s.followerPhase + ((j : ℝ) + 1) / 10) *
              2 * Real.pi)),
          { s with followerPhase :=
              Int.fract (s.followerPhase + (k : ℝ) / 10) })
  | 0, i, s, h0, h1 => by
    have hf : Int.fract s.followerPhase = s.followerPhase :=
      Int.fract_eq_self.mpr ⟨h0, h1⟩
    rw [runSamples]
    simp only [List.range_zero, List.map_nil, Nat.cast_zero, zero_div,
      add_zero, hf]
  | k + 1, i, s, h0, h1 => by
    have hs0 : (0:ℝ) ≤ Int.fract (s.followerPhase + 1 / 10) :=
      Int.fract_nonneg _
    have hs1 : Int.fract (s.followerPhase + 1 / 10) < 1 := Int.fract_lt_one _
    have IH := runSamples_sine k (i + 1)
      { s with followerPhase := Int.fract (s.followerPhase + 1 / 10) } hs0 hs1
    have hstep := processSample_sine_step s (wZero i) h0
    calc runSamples 1000 rawSine wZero (k + 1) i s
        = (runSamples 1000 rawSine wZero k (i + 1)
              (processSample 1000 pSine (wZero i) s).1).bind
            (fun rest => some ((processSample 1000 pSine (wZero i) s).2 ::
              rest.1, rest.2)) := by
          rw [runSamples, resolveParams_rawSine]
          rfl
      _ = (runSamples 1000 rawSine wZero k (i + 1)
              { s with followerPhase :=
                  Int.fract (s.followerPhase + 1 / 10) }).bind
            (fun rest => some (Real.sin (Int.fract (s.followerPhase + 1 / 10) *
              2 * Real.pi) :: rest.1, rest.2)) := by
          rw [hstep]
      _ = some (Real.sin (Int.fract (s.followerPhase + 1 / 10) * 2 * Real.pi) ::
            (List.range k).map (fun (j : ℕ) =>
              Real.sin (Int.fract (Int.fract (s.followerPhase + 1 / 10) +
                ((j : ℝ) + 1) / 10) * 2 * Real.pi)),
            { s with followerPhase :=
                Int.fract (Int.fract (s.followerPhase + 1 / 10) +
                  (k : ℝ) / 10) }) := by
          rw [IH]
          rfl
      _ = some ((List.range (k + 1)).map (fun (j : ℕ) =>
            Real.sin (Int.fract (s.followerPhase + ((j : ℝ) + 1) / 10) *
              2 * Real.pi)),
          { s with followerPhase :=
              Int.fract (s.followerPhase + ((k + 1 : ℕ) : ℝ) / 10) }) := by
          refine congrArg some (Prod.ext ?_ ?_)
          · rw [List.range_succ_eq_map, List.map_cons, List.map_map]
            refine List.cons_eq_cons.mpr ⟨by norm_num, ?_⟩
            refine List.map_congr_left (fun j hj => ?_)
            simp only [Function.comp]
            rw [fract_add_left]
            push_cast
            ring_nf
          · show ({ s with
                followerPhase := Int.fract (Int.fract (s.followerPhase + 1 / 10) + (k : ℝ) / 10) } : OscState) =
              { s with
                followerPhase := Int.fract (s.followerPhase + ((k + 1 : ℕ) : ℝ) / 10) }
            rw [fract_add_left]
            congr 1
            push_cast
            ring_nf

/-- The full spec section 8 sine scenario run: `signalType = 3`,
`frequency = 100`, `sampleRate = 1000`, `amplitude = 1`, `phaseOffset = 0`,
`vibrato = 0`, `sync = 0`, from the constructor state, over one bus with one
10-frame channel.  The sample written at block index `k` is
`sin(2 * pi * (k + 1) * 100/1000)`: the follower phase is advanced BEFORE the
sine is evaluated, so the block starts at `sin(2 * pi * 1/10)`, not at
`sin(0)`. -/
theorem process_sine_run :
    process 1000 rawSine wZero initState [[List.replicate 10 0]] =
      some ([[(List.range 10).map (fun (j : ℕ) =>
          Real.sin (2 * Real.pi * (((j : ℝ) + 1) * (100 / 1000))))]],
        initState, some true) := by
  rw [process_cons, List.length_replicate]
  rw [runSamples_sine 10 0 initState (by norm_num [initState])
    (by norm_num [initState])]
  have hstate : ({ initState with
      followerPhase := Int.fract (initState.followerPhase + ((10 : ℕ) : ℝ) / 10) } : OscState) =
      initState := by
    have h1 : initState.followerPhase + ((10 : ℕ) : ℝ) / 10 = 1 := by
      norm_num [initState]
    rw [h1, Int.fract_one]
    rfl
  rw [hstate]
  have hlist : (List.range 10).map (fun (j : ℕ) =>
      Real.sin (Int.fract (initState.followerPhase + ((j : ℝ) + 1) / 10) *
        2 * Real.pi)) =
      (List.range 10).map (fun (j : ℕ) =>
        Real.sin (2 * Real.pi * (((j : ℝ) + 1) * (100 / 1000)))) := by
    refine List.map_congr_left (fun j hj => ?_)
    have h0 : initState.followerPhase + ((j : ℝ) + 1) / 10 =
        ((j : ℝ) + 1) / 10 := by
      norm_num [initState]
    rw [h0, sin_fract_two_pi]
    congr 1
    ring
  rw [hlist]
  rfl

/-- Counterexample to claim C2: at block index `0` the written sample is
`sin(2 * pi * 1/10)` — the sine of the phase AFTER the first advance — which
is strictly positive, so it is NOT `sin(2 * pi * 0 * 100/1000) = 0` as the
claim (spec section 8, "sample at index k equals sin(2 pi k 100/1000)")
requires at `k = 0`. -/
theorem C2_first_sample_not_sin_zero :
    sampleAt (process 1000 rawSine wZero initState
        [[List.replicate 10 0]]) 0 =
      some (Real.sin (2 * Real.pi * (1 / 10))) ∧
    Real.sin (2 * Real.pi * (1 / 10)) ≠
      Real.sin (2 * Real.pi * (((0 : ℕ) : ℝ) * (100 / 1000))) := by
  constructor
  · rw [process_sine_run]
    show ((List.range 10).map (fun (j : ℕ) =>
        Real.sin (2 * Real.pi * (((j : ℝ) + 1) * (100 / 1000)))))[0]? = _
    rw [List.getElem?_map, List.getElem?_range (by norm_num)]
    refine congrArg some ?_
    norm_num
  · have hpos : 0 < Real.sin (2 * Real.pi * (1 / 10)) := by
      have h1 : (0:ℝ) < 2 * Real.pi * (1 / 10) := by positivity
      have h2 : 2 * Real.pi * (1 / 10) < Real.pi := by
        nlinarith [Real.pi_pos]
      exact Real.sin_pos_of_pos_of_lt_pi h1 h2
    simp only [Nat.cast_zero, zero_mul, mul_zero, Real.sin_zero]
    exact ne_of_gt hpos

/-- Claim C2 as amended: in the end-to-end scenario with `signalType = 3`
(sine), `frequency = 100`, `sampleRate = 1000`, `amplitude = 1`,
`phaseOffset = 0`, `vibrato = 0`, `sync = 0`, starting from the initial state
(both phases 0), the sample written at block index `k` equals
`sin(2 pi (k + 1) 100/1000)` for every `k` in `0..9` (the claim's
`sin(2 pi k 100/1000)` holds only shifted by one sample, because the phase
advances before the waveform is evaluated). -/
theorem C2_sine_scenario_shifted :
    process 1000 rawSine wZero initState [[List.replicate 10 0]] =
      some ([[(List.range 10).map (fun (j : ℕ) =>
          Real.sin (2 * Real.pi * (((j : ℝ) + 1) * (100 / 1000))))]],
        initState, some true) :=
  process_sine_run
